import Mathlib

/-!
Verification of the Portal time-block domain logic.

This file gives a shallow embedding of the core domain logic of the
Portal team-portal application and proves (or refutes) the stated
properties about it:

* a proleptic-Gregorian calendar model of the JavaScript `Date`
  primitives used by `frontend/src/utils/datetime.ts` and
  `backend/src/routes/rankings.ts` (instants are epoch milliseconds as
  `Int`, civil dates are `(year, month, day)` triples);
* the time-block interval store of `backend/src/routes/timeBlocks.ts`
  (create / update / delete with the overlap check on create);
* the clipped-duration interval aggregator of the work-hours ranking
  SQL and of the dashboard;
* the revenue month-range computation of `GET /rankings/revenue`;
* the `parseSummary` label encoding of `frontend/src/api/client.ts`
  and the `summary` filter of the work-hours ranking SQL;
* the ranking assembler joining aggregates against the member roster;
* a two-request interleaving model of the SELECT-then-INSERT create
  path.

Division on `Int` below is `Int.ediv` (floor division for positive
divisors), which matches JavaScript's `Math.floor` based day/month
arithmetic and Hinnant's civil-calendar algorithm.
-/

namespace Portal

/-- Proleptic-Gregorian leap-year test (the rule implemented by
JavaScript `Date`). -/
def isLeap (y : Int) : Bool :=
  (y % 4 == 0 && y % 100 != 0) || y % 400 == 0

/-- Number of days in month `m` (1..12) of year `y`. -/
def daysInMonth (y m : Int) : Int :=
  if m = 2 then (if isLeap y then 29 else 28)
  else if m = 4 ∨ m = 6 ∨ m = 9 ∨ m = 11 then 30
  else 31

/-- Days since 1970-01-01 of the civil date `y-m-d` (proleptic
Gregorian); Hinnant's `days_from_civil` algorithm, the arithmetic
underlying JavaScript `Date.UTC`. -/
def daysFromCivil (y m d : Int) : Int :=
  (y - (if m ≤ 2 then 1 else 0)) / 400 * 146097
  + ((y - (if m ≤ 2 then 1 else 0)) - (y - (if m ≤ 2 then 1 else 0)) / 400 * 400) * 365
  + ((y - (if m ≤ 2 then 1 else 0)) - (y - (if m ≤ 2 then 1 else 0)) / 400 * 400) / 4
  - ((y - (if m ≤ 2 then 1 else 0)) - (y - (if m ≤ 2 then 1 else 0)) / 400 * 400) / 100
  + (153 * (m + (if m > 2 then -3 else 9)) + 2) / 5 + d - 1
  - 719468

/-- A civil (calendar) date. -/
structure CivilDate where
  year : Int
  month : Int
  day : Int
deriving DecidableEq

/-- `daysFromCivil` on a `CivilDate`. -/
def CivilDate.toDays (p : CivilDate) : Int :=
  daysFromCivil p.year p.month p.day

/-- A well-formed civil date: month in 1..12, day in range for the
month. -/
def CivilDate.Valid (p : CivilDate) : Prop :=
  1 ≤ p.month ∧ p.month ≤ 12 ∧ 1 ≤ p.day ∧ p.day ≤ daysInMonth p.year p.month

instance (p : CivilDate) : Decidable p.Valid :=
  inferInstanceAs (Decidable (_ ∧ _ ∧ _ ∧ _))

theorem CivilDate.valid_mk (y m d : Int) :
    (CivilDate.mk y m d).Valid ↔ 1 ≤ m ∧ m ≤ 12 ∧ 1 ≤ d ∧ d ≤ daysInMonth y m :=
  Iff.rfl

theorem CivilDate.toDays_mk (y m d : Int) :
    (CivilDate.mk y m d).toDays = daysFromCivil y m d :=
  rfl

/-- Successor of a civil date. -/
def nextDate (p : CivilDate) : CivilDate :=
  if p.day < daysInMonth p.year p.month then ⟨p.year, p.month, p.day + 1⟩
  else if p.month < 12 then ⟨p.year, p.month + 1, 1⟩
  else ⟨p.year + 1, 1, 1⟩

/-- Civil date of a day number (inverse of `daysFromCivil`): step from
the start of the 400-year era containing the day. -/
def civilFromDays (z : Int) : CivilDate :=
  nextDate^[((z + 719468) % 146097).toNat] ⟨400 * ((z + 719468) / 146097), 3, 1⟩

/-- Day of week of a day number, 0 = Sunday (1970-01-01 was a
Thursday); the value JavaScript's `getUTCDay`/`getDay` returns. -/
def weekdayOfDay (z : Int) : Int :=
  (z + 4) % 7

theorem isLeap_iff (y : Int) :
    isLeap y = true ↔ ((y % 4 = 0 ∧ y % 100 ≠ 0) ∨ y % 400 = 0) := by
  simp [isLeap]

theorem daysInMonth_bounds (y m : Int) :
    28 ≤ daysInMonth y m ∧ daysInMonth y m ≤ 31 := by
  unfold daysInMonth
  split_ifs <;> omega

theorem daysFromCivil_day_linear (y m d : Int) :
    daysFromCivil y m d = daysFromCivil y m 1 + d - 1 := by
  unfold daysFromCivil
  omega

theorem daysFromCivil_mar1_of_leap (y : Int)
    (h : (y % 4 = 0 ∧ y % 100 ≠ 0) ∨ y % 400 = 0) :
    daysFromCivil y 3 1 = daysFromCivil y 2 29 + 1 := by
  have e1 : (y - y / 400 * 400) / 4 = y / 4 - y / 400 * 100 := by omega
  have e2 : (y - y / 400 * 400) / 100 = y / 100 - y / 400 * 4 := by omega
  have e3 : (y - 1 - (y - 1) / 400 * 400) / 4 = (y - 1) / 4 - (y - 1) / 400 * 100 := by omega
  have e4 : (y - 1 - (y - 1) / 400 * 400) / 100 = (y - 1) / 100 - (y - 1) / 400 * 4 := by omega
  unfold daysFromCivil
  rcases h with ⟨c4, c100⟩ | c400
  · have f1 : (y - 1) / 4 = y / 4 - 1 := by omega
    have f2 : (y - 1) / 100 = y / 100 := by omega
    have f3 : (y - 1) / 400 = y / 400 := by omega
    omega
  · have c4 : y % 4 = 0 := by omega
    have c100 : y % 100 = 0 := by omega
    have f1 : (y - 1) / 4 = y / 4 - 1 := by omega
    have f2 : (y - 1) / 100 = y / 100 - 1 := by omega
    have f3 : (y - 1) / 400 = y / 400 - 1 := by omega
    omega

theorem daysFromCivil_mar1_of_not_leap (y : Int)
    (h : ¬ ((y % 4 = 0 ∧ y % 100 ≠ 0) ∨ y % 400 = 0)) :
    daysFromCivil y 3 1 = daysFromCivil y 2 28 + 1 := by
  have e1 : (y - y / 400 * 400) / 4 = y / 4 - y / 400 * 100 := by omega
  have e2 : (y - y / 400 * 400) / 100 = y / 100 - y / 400 * 4 := by omega
  have e3 : (y - 1 - (y - 1) / 400 * 400) / 4 = (y - 1) / 4 - (y - 1) / 400 * 100 := by omega
  have e4 : (y - 1 - (y - 1) / 400 * 400) / 100 = (y - 1) / 100 - (y - 1) / 400 * 4 := by omega
  unfold daysFromCivil
  by_cases c4 : y % 4 = 0
  · have c100 : y % 100 = 0 := by tauto
    have c400 : y % 400 ≠ 0 := by tauto
    have f1 : (y - 1) / 4 = y / 4 - 1 := by omega
    have f2 : (y - 1) / 100 = y / 100 - 1 := by omega
    have f3 : (y - 1) / 400 = y / 400 := by omega
    omega
  · have f1 : (y - 1) / 4 = y / 4 := by omega
    have f2 : (y - 1) / 100 = y / 100 := by omega
    have f3 : (y - 1) / 400 = y / 400 := by omega
    omega

theorem daysFromCivil_month_rollover (y m : Int) (h1 : 1 ≤ m) (h2 : m ≤ 11)
    (hm : m ≠ 2) :
    daysFromCivil y (m + 1) 1 = daysFromCivil y m (daysInMonth y m) + 1 := by
  unfold daysFromCivil daysInMonth
  interval_cases m <;> simp <;> omega

theorem daysFromCivil_year_rollover (y : Int) :
    daysFromCivil (y + 1) 1 1 = daysFromCivil y 12 31 + 1 := by
  unfold daysFromCivil
  omega

theorem daysFromCivil_within_month (y m d : Int)
    (h : d < daysInMonth y m) :
    daysFromCivil y m (d + 1) = daysFromCivil y m d + 1 := by
  unfold daysFromCivil
  omega

theorem nextDate_step (p : CivilDate) (hv : p.Valid) :
    (nextDate p).Valid ∧ (nextDate p).toDays = p.toDays + 1 := by
  obtain ⟨hm1, hm2, hd1, hd2⟩ := hv
  unfold nextDate
  by_cases hd : p.day < daysInMonth p.year p.month
  · rw [if_pos hd, CivilDate.valid_mk, CivilDate.toDays_mk]
    refine ⟨⟨hm1, hm2, by omega, by omega⟩, ?_⟩
    show daysFromCivil p.year p.month (p.day + 1) = p.toDays + 1
    exact daysFromCivil_within_month p.year p.month p.day hd
  · rw [if_neg hd]
    have hdim := daysInMonth_bounds p.year p.month
    have hde : p.day = daysInMonth p.year p.month := by omega
    by_cases hm : p.month < 12
    · rw [if_pos hm, CivilDate.valid_mk, CivilDate.toDays_mk]
      have hdim2 := daysInMonth_bounds p.year (p.month + 1)
      refine ⟨⟨by omega, by omega, by omega, by omega⟩, ?_⟩
      show daysFromCivil p.year (p.month + 1) 1 = daysFromCivil p.year p.month p.day + 1
      by_cases h2 : p.month = 2
      · rw [h2] at hde ⊢
        by_cases hl : isLeap p.year = true
        · rw [isLeap_iff] at hl
          have h29 : daysInMonth p.year 2 = 29 := by
            unfold daysInMonth
            rw [if_pos rfl, if_pos (by rw [isLeap_iff]; exact hl)]
          rw [hde, h29]
          exact daysFromCivil_mar1_of_leap p.year hl
        · have hl' : ¬ ((p.year % 4 = 0 ∧ p.year % 100 ≠ 0) ∨ p.year % 400 = 0) := by
            rw [← isLeap_iff]
            simp [hl]
          have h28 : daysInMonth p.year 2 = 28 := by
            unfold daysInMonth
            rw [if_pos rfl, if_neg (by simp [hl])]
          rw [hde, h28]
          exact daysFromCivil_mar1_of_not_leap p.year hl'
      · rw [hde]
        exact daysFromCivil_month_rollover p.year p.month hm1 (by omega) h2
    · rw [if_neg hm, CivilDate.valid_mk, CivilDate.toDays_mk]
      have hm12 : p.month = 12 := by omega
      have h31 : daysInMonth p.year 12 = 31 := by unfold daysInMonth; norm_num
      have h31' : daysInMonth (p.year + 1) 1 = 31 := by unfold daysInMonth; norm_num
      refine ⟨⟨by omega, by omega, by omega, by omega⟩, ?_⟩
      show daysFromCivil (p.year + 1) 1 1 = daysFromCivil p.year p.month p.day + 1
      rw [hm12] at hde ⊢
      rw [hde, h31]
      exact daysFromCivil_year_rollover p.year

theorem nextDate_iterate (n : Nat) (p : CivilDate) (hv : p.Valid) :
    (nextDate^[n] p).Valid ∧ (nextDate^[n] p).toDays = p.toDays + n := by
  induction n with
  | zero =>
    rw [Function.iterate_zero_apply]
    exact ⟨hv, by push_cast; ring⟩
  | succ k ih =>
    rw [Function.iterate_succ_apply']
    obtain ⟨ihv, ihd⟩ := ih
    obtain ⟨hv', hd'⟩ := nextDate_step _ ihv
    refine ⟨hv', ?_⟩
    rw [hd', ihd]
    push_cast
    ring

theorem eraStart_valid (k : Int) : (⟨400 * k, 3, 1⟩ : CivilDate).Valid := by
  rw [CivilDate.valid_mk]
  have h : daysInMonth (400 * k) 3 = 31 := by unfold daysInMonth; norm_num
  omega

theorem eraStart_toDays (k : Int) :
    (⟨400 * k, 3, 1⟩ : CivilDate).toDays = 146097 * k - 719468 := by
  rw [CivilDate.toDays_mk]
  unfold daysFromCivil
  omega

theorem civilFromDays_spec (z : Int) :
    (civilFromDays z).Valid ∧ (civilFromDays z).toDays = z := by
  unfold civilFromDays
  have hk := nextDate_iterate ((z + 719468) % 146097).toNat
    ⟨400 * ((z + 719468) / 146097), 3, 1⟩ (eraStart_valid _)
  obtain ⟨hv, hd⟩ := hk
  refine ⟨hv, ?_⟩
  rw [hd, eraStart_toDays]
  have hnn : (0 : Int) ≤ (z + 719468) % 146097 := by omega
  rw [Int.toNat_of_nonneg hnn]
  omega

-- sanity checks against known dates
example : daysFromCivil 1970 1 1 = 0 := by decide
example : daysFromCivil 2024 1 31 = 19753 := by decide
example : civilFromDays (-719468) = ⟨0, 3, 1⟩ := by decide
example : civilFromDays (-719464) = ⟨0, 3, 5⟩ := by decide
example : weekdayOfDay 0 = 4 := by decide
example : weekdayOfDay (-719464) = 0 := by decide

/-!
## JavaScript `Date` model

An instant is its epoch-millisecond value (an `Int`).  `Date.UTC(y, m0, d)`
takes a zero-based month index and normalises out-of-range month and day
arguments exactly as below (month overflow moves the year, day overflow
moves the month).
-/

/-- Day number of `Date.UTC(y, m0, d)` (zero-based month `m0`, with JS
month/day normalisation). -/
def jsUTCDays (y m0 d : Int) : Int :=
  daysFromCivil (y + m0 / 12) (m0 % 12 + 1) 1 + d - 1

/-- `Date.UTC(y, m0, d)` in epoch milliseconds. -/
def jsUTCms (y m0 d : Int) : Int :=
  86400000 * jsUTCDays y m0 d

/-- Civil date parts of an instant as seen at UTC (`getUTCFullYear` /
`getUTCMonth + 1` / `getUTCDate`). -/
def civilOfMs (ms : Int) : CivilDate :=
  civilFromDays (ms / 86400000)

theorem jsUTCDays_of_month_in_range (y m d : Int) (h1 : 1 ≤ m) (h2 : m ≤ 12) :
    jsUTCDays y (m - 1) d = daysFromCivil y m d := by
  unfold jsUTCDays
  have e1 : y + (m - 1) / 12 = y := by omega
  have e2 : (m - 1) % 12 + 1 = m := by omega
  rw [e1, e2, daysFromCivil_day_linear y m d]

/-!
## Period Boundary Calculator

Frontend: `frontend/src/utils/datetime.ts` — all boundaries are derived
from the civil date of the reference instant in the fixed UTC+9 zone
(`Asia/Yakutsk`), then mapped back to instants through the fixed offset
`UTC_OFFSET_MS`.

Backend: `getWorkHoursRanges` in `backend/src/routes/rankings.ts` — the
boundaries are derived from the civil date of the reference instant in
the *runtime's local* timezone (`new Date(y, m, d)`), modelled here by
an arbitrary fixed local offset `offMs` (Asia/Yakutsk, the documented
deployment zone, has no DST, so a fixed offset models it exactly; the
counterexample below uses another DST-free zone, UTC itself).
-/

/-- Fixed app timezone offset: UTC+9 in milliseconds
(`UTC_OFFSET_MS = 9 * 60 * 60 * 1000` in `datetime.ts`). -/
def UTC_OFFSET_MS : Int := 9 * 60 * 60 * 1000

/-- `getAppLocalParts`: the civil date of instant `t` in the fixed UTC+9
zone (the result of `toLocaleDateString('en-CA', Asia/Yakutsk)`). -/
def getAppLocalParts (t : Int) : CivilDate :=
  civilOfMs (t + UTC_OFFSET_MS)

/-- `midnightYakutskISO y m d = Date.UTC(y, m-1, d) - UTC_OFFSET_MS`
(month `m` is 1-based here, as in the source). -/
def midnightYakutskISO (y m d : Int) : Int :=
  jsUTCms y (m - 1) d - UTC_OFFSET_MS

/-- `getTodayStartISO` of a reference instant. -/
def getTodayStartISO (t : Int) : Int :=
  midnightYakutskISO (getAppLocalParts t).year (getAppLocalParts t).month
    (getAppLocalParts t).day

/-- `getTodayEndISO`: build `Date.UTC(y, m-1, d)`, advance one day with
`setUTCDate`, and re-read the civil parts. -/
def getTodayEndISO (t : Int) : Int :=
  midnightYakutskISO
    (civilFromDays (jsUTCDays (getAppLocalParts t).year
      ((getAppLocalParts t).month - 1) (getAppLocalParts t).day + 1)).year
    (civilFromDays (jsUTCDays (getAppLocalParts t).year
      ((getAppLocalParts t).month - 1) (getAppLocalParts t).day + 1)).month
    (civilFromDays (jsUTCDays (getAppLocalParts t).year
      ((getAppLocalParts t).month - 1) (getAppLocalParts t).day + 1)).day

/-- `getDayOfWeek y m d` (0 = Sunday), via `Date.UTC`'s `getUTCDay`. -/
def getDayOfWeek (y m d : Int) : Int :=
  weekdayOfDay (jsUTCDays y (m - 1) d)

/-- `getWeekStartISO`: step back `getDayOfWeek` days with `setUTCDate`
and re-read the civil parts. -/
def getWeekStartISO (t : Int) : Int :=
  midnightYakutskISO
    (civilFromDays (jsUTCDays (getAppLocalParts t).year
      ((getAppLocalParts t).month - 1) (getAppLocalParts t).day
      - getDayOfWeek (getAppLocalParts t).year (getAppLocalParts t).month
          (getAppLocalParts t).day)).year
    (civilFromDays (jsUTCDays (getAppLocalParts t).year
      ((getAppLocalParts t).month - 1) (getAppLocalParts t).day
      - getDayOfWeek (getAppLocalParts t).year (getAppLocalParts t).month
          (getAppLocalParts t).day)).month
    (civilFromDays (jsUTCDays (getAppLocalParts t).year
      ((getAppLocalParts t).month - 1) (getAppLocalParts t).day
      - getDayOfWeek (getAppLocalParts t).year (getAppLocalParts t).month
          (getAppLocalParts t).day)).day

/-- `getWeekEndISO`: step forward `7 - getDayOfWeek` days with
`setUTCDate` and re-read the civil parts. -/
def getWeekEndISO (t : Int) : Int :=
  midnightYakutskISO
    (civilFromDays (jsUTCDays (getAppLocalParts t).year
      ((getAppLocalParts t).month - 1) (getAppLocalParts t).day
      + (7 - getDayOfWeek (getAppLocalParts t).year (getAppLocalParts t).month
          (getAppLocalParts t).day))).year
    (civilFromDays (jsUTCDays (getAppLocalParts t).year
      ((getAppLocalParts t).month - 1) (getAppLocalParts t).day
      + (7 - getDayOfWeek (getAppLocalParts t).year (getAppLocalParts t).month
          (getAppLocalParts t).day))).month
    (civilFromDays (jsUTCDays (getAppLocalParts t).year
      ((getAppLocalParts t).month - 1) (getAppLocalParts t).day
      + (7 - getDayOfWeek (getAppLocalParts t).year (getAppLocalParts t).month
          (getAppLocalParts t).day))).day

/-- `getMonthStartISO`. -/
def getMonthStartISO (t : Int) : Int :=
  midnightYakutskISO (getAppLocalParts t).year (getAppLocalParts t).month 1

/-- `getMonthEndISO` (start of the next month; month 13 normalises to
January of the next year inside `Date.UTC`). -/
def getMonthEndISO (t : Int) : Int :=
  midnightYakutskISO (getAppLocalParts t).year ((getAppLocalParts t).month + 1) 1

/-- The six boundaries returned by the backend `getWorkHoursRanges`. -/
structure WorkHoursRanges where
  todayS : Int
  todayE : Int
  weekS : Int
  weekE : Int
  monthS : Int
  monthE : Int
deriving DecidableEq

/-- `new Date(y, m0, d)` under a runtime zone of fixed offset `offMs`:
the local wall-clock date mapped back to an instant. -/
def localNewDateMs (offMs y m0 d : Int) : Int :=
  jsUTCms y m0 d - offMs

/-- The `weekS` binding of `getWorkHoursRanges`:
`new Date(y, m, d - dayOfWeek)` in the runtime local zone. -/
def backendWeekS (t offMs : Int) : Int :=
  localNewDateMs offMs (civilFromDays ((t + offMs) / 86400000)).year
    ((civilFromDays ((t + offMs) / 86400000)).month - 1)
    ((civilFromDays ((t + offMs) / 86400000)).day
      - weekdayOfDay ((t + offMs) / 86400000))

/-- Backend `getWorkHoursRanges` (in `rankings.ts`), for a reference
instant `t` and a runtime local timezone of fixed offset `offMs`:
today / week / month boundaries from the *local* civil calendar
(`now.getFullYear()/getMonth()/getDate()/getDay()`, `new Date(y, m, d)`,
and `setDate(getDate() + 7)` for the week end). -/
def getWorkHoursRanges (t offMs : Int) : WorkHoursRanges where
  todayS := localNewDateMs offMs (civilFromDays ((t + offMs) / 86400000)).year
    ((civilFromDays ((t + offMs) / 86400000)).month - 1)
    (civilFromDays ((t + offMs) / 86400000)).day
  todayE := localNewDateMs offMs (civilFromDays ((t + offMs) / 86400000)).year
    ((civilFromDays ((t + offMs) / 86400000)).month - 1)
    ((civilFromDays ((t + offMs) / 86400000)).day + 1)
  weekS := backendWeekS t offMs
  weekE := localNewDateMs offMs
    (civilFromDays ((backendWeekS t offMs + offMs) / 86400000)).year
    ((civilFromDays ((backendWeekS t offMs + offMs) / 86400000)).month - 1)
    ((civilFromDays ((backendWeekS t offMs + offMs) / 86400000)).day + 7)
  monthS := localNewDateMs offMs (civilFromDays ((t + offMs) / 86400000)).year
    ((civilFromDays ((t + offMs) / 86400000)).month - 1) 1
  monthE := localNewDateMs offMs (civilFromDays ((t + offMs) / 86400000)).year
    (civilFromDays ((t + offMs) / 86400000)).month 1

/-- The same six boundaries as computed in the browser by
`datetime.ts`. -/
def frontendRanges (t : Int) : WorkHoursRanges :=
  { todayS := getTodayStartISO t
  , todayE := getTodayEndISO t
  , weekS := getWeekStartISO t
  , weekE := getWeekEndISO t
  , monthS := getMonthStartISO t
  , monthE := getMonthEndISO t }

theorem rebuiltDay_eq (n : Int) (d' : Int) :
    jsUTCDays (civilFromDays n).year ((civilFromDays n).month - 1)
      ((civilFromDays n).day + d') = n + d' := by
  obtain ⟨hv, hd⟩ := civilFromDays_spec n
  obtain ⟨h1, h2, _, _⟩ := hv
  rw [jsUTCDays_of_month_in_range _ _ _ h1 h2,
    daysFromCivil_day_linear (civilFromDays n).year (civilFromDays n).month
      ((civilFromDays n).day + d')]
  have := daysFromCivil_day_linear (civilFromDays n).year (civilFromDays n).month
    (civilFromDays n).day
  unfold CivilDate.toDays at hd
  omega

theorem rebuiltDay_eq' (n : Int) :
    jsUTCDays (civilFromDays n).year ((civilFromDays n).month - 1)
      (civilFromDays n).day = n := by
  have h := rebuiltDay_eq n 0
  simpa using h

theorem rebuiltDay_sub (n d' : Int) :
    jsUTCDays (civilFromDays n).year ((civilFromDays n).month - 1)
      ((civilFromDays n).day - d') = n - d' := by
  have h := rebuiltDay_eq n (-d')
  simpa [sub_eq_add_neg] using h

theorem getTodayStartISO_eq (t : Int) :
    getTodayStartISO t
      = 86400000 * ((t + UTC_OFFSET_MS) / 86400000) - UTC_OFFSET_MS := by
  unfold getTodayStartISO midnightYakutskISO jsUTCms getAppLocalParts civilOfMs
  rw [rebuiltDay_eq']

theorem getTodayEndISO_eq (t : Int) :
    getTodayEndISO t
      = 86400000 * ((t + UTC_OFFSET_MS) / 86400000 + 1) - UTC_OFFSET_MS := by
  unfold getTodayEndISO midnightYakutskISO jsUTCms getAppLocalParts civilOfMs
  rw [rebuiltDay_eq' ((t + UTC_OFFSET_MS) / 86400000), rebuiltDay_eq']

theorem getWeekStartISO_eq (t : Int) :
    getWeekStartISO t
      = 86400000 * ((t + UTC_OFFSET_MS) / 86400000
          - weekdayOfDay ((t + UTC_OFFSET_MS) / 86400000)) - UTC_OFFSET_MS := by
  unfold getWeekStartISO getDayOfWeek midnightYakutskISO jsUTCms getAppLocalParts civilOfMs
  rw [rebuiltDay_eq' ((t + UTC_OFFSET_MS) / 86400000), rebuiltDay_eq']

theorem getWeekEndISO_eq (t : Int) :
    getWeekEndISO t
      = 86400000 * ((t + UTC_OFFSET_MS) / 86400000
          + (7 - weekdayOfDay ((t + UTC_OFFSET_MS) / 86400000))) - UTC_OFFSET_MS := by
  unfold getWeekEndISO getDayOfWeek midnightYakutskISO jsUTCms getAppLocalParts civilOfMs
  rw [rebuiltDay_eq' ((t + UTC_OFFSET_MS) / 86400000), rebuiltDay_eq']

theorem backendWeekS_eq (t offMs : Int) :
    backendWeekS t offMs
      = 86400000 * ((t + offMs) / 86400000
          - weekdayOfDay ((t + offMs) / 86400000)) - offMs := by
  unfold backendWeekS localNewDateMs jsUTCms
  rw [rebuiltDay_sub]

theorem frontendRanges_closed (t : Int) :
    frontendRanges t = WorkHoursRanges.mk
      (86400000 * ((t + UTC_OFFSET_MS) / 86400000) - UTC_OFFSET_MS)
      (86400000 * ((t + UTC_OFFSET_MS) / 86400000 + 1) - UTC_OFFSET_MS)
      (86400000 * ((t + UTC_OFFSET_MS) / 86400000
        - weekdayOfDay ((t + UTC_OFFSET_MS) / 86400000)) - UTC_OFFSET_MS)
      (86400000 * ((t + UTC_OFFSET_MS) / 86400000
        - weekdayOfDay ((t + UTC_OFFSET_MS) / 86400000) + 7) - UTC_OFFSET_MS)
      (86400000 * jsUTCDays
        (civilFromDays ((t + UTC_OFFSET_MS) / 86400000)).year
        ((civilFromDays ((t + UTC_OFFSET_MS) / 86400000)).month - 1) 1
        - UTC_OFFSET_MS)
      (86400000 * jsUTCDays
        (civilFromDays ((t + UTC_OFFSET_MS) / 86400000)).year
        (civilFromDays ((t + UTC_OFFSET_MS) / 86400000)).month 1
        - UTC_OFFSET_MS) := by
  unfold frontendRanges
  rw [WorkHoursRanges.mk.injEq]
  refine ⟨getTodayStartISO_eq t, getTodayEndISO_eq t, getWeekStartISO_eq t,
    by rw [getWeekEndISO_eq]; ring, ?_, ?_⟩
  · unfold getMonthStartISO midnightYakutskISO jsUTCms getAppLocalParts civilOfMs
    rfl
  · unfold getMonthEndISO midnightYakutskISO jsUTCms getAppLocalParts civilOfMs
    have e : (civilFromDays ((t + UTC_OFFSET_MS) / 86400000)).month + 1 - 1
        = (civilFromDays ((t + UTC_OFFSET_MS) / 86400000)).month := by ring
    rw [e]

theorem getWorkHoursRanges_closed (t offMs : Int) :
    getWorkHoursRanges t offMs = WorkHoursRanges.mk
      (86400000 * ((t + offMs) / 86400000) - offMs)
      (86400000 * ((t + offMs) / 86400000 + 1) - offMs)
      (86400000 * ((t + offMs) / 86400000
        - weekdayOfDay ((t + offMs) / 86400000)) - offMs)
      (86400000 * ((t + offMs) / 86400000
        - weekdayOfDay ((t + offMs) / 86400000) + 7) - offMs)
      (86400000 * jsUTCDays (civilFromDays ((t + offMs) / 86400000)).year
        ((civilFromDays ((t + offMs) / 86400000)).month - 1) 1 - offMs)
      (86400000 * jsUTCDays (civilFromDays ((t + offMs) / 86400000)).year
        (civilFromDays ((t + offMs) / 86400000)).month 1 - offMs) := by
  have hq : (backendWeekS t offMs + offMs) / 86400000
      = (t + offMs) / 86400000 - weekdayOfDay ((t + offMs) / 86400000) := by
    rw [backendWeekS_eq]
    omega
  unfold getWorkHoursRanges
  rw [WorkHoursRanges.mk.injEq]
  refine ⟨?_, ?_, backendWeekS_eq t offMs, ?_, rfl, rfl⟩
  · unfold localNewDateMs jsUTCms
    rw [rebuiltDay_eq']
  · unfold localNewDateMs jsUTCms
    rw [rebuiltDay_eq]
  · rw [hq]
    unfold localNewDateMs jsUTCms
    rw [rebuiltDay_eq]

/-- C5 (amended).  When the server's runtime local timezone is the
app's fixed UTC+9 offset (`TZ=Asia/Yakutsk`, the deployment documented
in `rankings.ts`), the six period boundaries computed by the backend
`getWorkHoursRanges` coincide with the six computed in the browser by
`datetime.ts`, and the week range starts at the most recent Sunday
midnight UTC+9 at or before the reference instant and ends exactly
7 days later.  (For other runtime offsets the two disagree; see the
counterexample.) -/
theorem workHoursRanges_consistent_at_fixed_offset (t : Int) :
    getWorkHoursRanges t UTC_OFFSET_MS = frontendRanges t
    ∧ getWeekEndISO t = getWeekStartISO t + 7 * 86400000
    ∧ (∃ k : Int, getWeekStartISO t = 86400000 * k - UTC_OFFSET_MS
        ∧ weekdayOfDay k = 0
        ∧ getWeekStartISO t ≤ t
        ∧ ∀ k' : Int, weekdayOfDay k' = 0 →
            86400000 * k' - UTC_OFFSET_MS ≤ t → k' ≤ k) := by
  refine ⟨?_, ?_, ?_⟩
  · rw [getWorkHoursRanges_closed, frontendRanges_closed]
  · rw [getWeekEndISO_eq, getWeekStartISO_eq]
    ring
  · refine ⟨(t + UTC_OFFSET_MS) / 86400000
      - weekdayOfDay ((t + UTC_OFFSET_MS) / 86400000),
      getWeekStartISO_eq t, ?_, ?_, ?_⟩
    · unfold weekdayOfDay
      omega
    · rw [getWeekStartISO_eq]
      unfold weekdayOfDay
      omega
    · intro k' h0 hle
      unfold weekdayOfDay at h0 ⊢
      omega

/-- C5 counterexample.  The claim quantifies over every runtime local
timezone; with the runtime zone UTC (offset 0) and reference instant
0000-03-05T00:00:00Z (a Sunday), the backend boundaries differ from the
frontend's fixed-UTC+9 boundaries. -/
theorem workHoursRanges_offset_dependent :
    getWorkHoursRanges (-62161689600000) 0 ≠ frontendRanges (-62161689600000) := by
  decide

/-!
## Generic insertion sort

Model of JavaScript `Array.prototype.sort` with a consistent comparator
(stable, result sorted by the comparator) and of SQL `ORDER BY`.
-/

/-- Insert `a` before the first element `b` with `le a b`. -/
def insertSorted {α : Type} (le : α → α → Bool) (a : α) : List α → List α
  | [] => [a]
  | b :: l => if le a b then a :: b :: l else b :: insertSorted le a l

/-- Insertion sort with boolean comparator `le`. -/
def sortBy {α : Type} (le : α → α → Bool) : List α → List α
  | [] => []
  | a :: l => insertSorted le a (sortBy le l)

theorem perm_insertSorted {α : Type} (le : α → α → Bool) (a : α) (l : List α) :
    List.Perm (insertSorted le a l) (a :: l) := by
  induction l with
  | nil => exact List.Perm.refl _
  | cons b l ih =>
    unfold insertSorted
    by_cases h : le a b
    · rw [if_pos h]
    · rw [if_neg h]
      exact ((ih.cons b).trans (List.Perm.swap a b l))

theorem perm_sortBy {α : Type} (le : α → α → Bool) (l : List α) :
    List.Perm (sortBy le l) l := by
  induction l with
  | nil => exact List.Perm.refl _
  | cons a l ih =>
    unfold sortBy
    exact (perm_insertSorted le a (sortBy le l)).trans (ih.cons a)

theorem mem_sortBy {α : Type} (le : α → α → Bool) (l : List α) (x : α) :
    x ∈ sortBy le l ↔ x ∈ l :=
  (perm_sortBy le l).mem_iff

theorem pairwise_insertSorted {α : Type} (le : α → α → Bool)
    (htot : ∀ a b, le a b = false → le b a = true)
    (htrans : ∀ a b c, le a b = true → le b c = true → le a c = true)
    (a : α) (l : List α) (h : l.Pairwise (le · · = true)) :
    (insertSorted le a l).Pairwise (le · · = true) := by
  induction l with
  | nil => simp [insertSorted]
  | cons b l ih =>
    rw [List.pairwise_cons] at h
    obtain ⟨hb, hl⟩ := h
    unfold insertSorted
    by_cases hab : le a b
    · rw [if_pos hab, List.pairwise_cons]
      refine ⟨?_, List.pairwise_cons.mpr ⟨hb, hl⟩⟩
      intro x hx
      rcases List.mem_cons.mp hx with rfl | hx
      · exact hab
      · exact htrans a b x hab (hb x hx)
    · rw [if_neg hab, List.pairwise_cons]
      refine ⟨?_, ih hl⟩
      intro x hx
      rcases List.mem_cons.mp ((perm_insertSorted le a l).mem_iff.mp hx) with h1 | h1
      · rw [h1]
        exact htot a b (by simpa using hab)
      · exact hb x h1

theorem pairwise_sortBy {α : Type} (le : α → α → Bool)
    (htot : ∀ a b, le a b = false → le b a = true)
    (htrans : ∀ a b c, le a b = true → le b c = true → le a c = true)
    (l : List α) :
    (sortBy le l).Pairwise (le · · = true) := by
  induction l with
  | nil => simp [sortBy]
  | cons a l ih =>
    unfold sortBy
    exact pairwise_insertSorted le htot htrans a (sortBy le l) ih

/-!
## Interval Store: `backend/src/routes/timeBlocks.ts`

A stored time block is a row of the `time_blocks` table; the store is
the list of rows (insertion order).  Row ids model the generated UUIDs
(fresh on insert).  Summaries are JS strings, modelled as `List Char`.
-/

/-- A `time_blocks` row. -/
structure Block where
  id : Nat
  userId : Nat
  startAt : Int
  endAt : Int
  summary : Option (List Char)
deriving DecidableEq

/-- The overlap test of POST /time-blocks:
`SELECT .. WHERE user_id = $1 AND end_at > $2 AND start_at < $3`
with `$2 = start`, `$3 = end` — true iff some block of the user has
`end_at > start` and `start_at < end`. -/
def overlapExists (bs : List Block) (uid : Nat) (s e : Int) : Bool :=
  bs.any fun b => decide (b.userId = uid ∧ s < b.endAt ∧ b.startAt < e)

/-- A fresh row id (the store never contains it). -/
def nextId (bs : List Block) : Nat :=
  (bs.map Block.id).foldr Nat.max 0 + 1

inductive CreateResult where
  | created (b : Block)
  | validationError
  | conflict
deriving DecidableEq

/-- POST /time-blocks: reject `end ≤ start` (400), then the overlap
check (409), then INSERT. -/
def createInterval (bs : List Block) (uid : Nat) (s e : Int)
    (sm : Option (List Char)) : CreateResult × List Block :=
  if e ≤ s then (.validationError, bs)
  else if overlapExists bs uid s e then (.conflict, bs)
  else (.created ⟨nextId bs, uid, s, e, sm⟩, bs ++ [⟨nextId bs, uid, s, e, sm⟩])

/-- The PATCH body: each field optionally present. -/
structure UpdatePatch where
  startAt : Option Int
  endAt : Option Int
  summary : Option (Option (List Char))
deriving DecidableEq

inductive UpdateResult where
  | updated (b : Block)
  | noFields
  | notFound
  | checkViolation
deriving DecidableEq

/-- Apply the present fields of a PATCH to a row. -/
def applyPatch (b : Block) (p : UpdatePatch) : Block :=
  { b with startAt := p.startAt.getD b.startAt
         , endAt := p.endAt.getD b.endAt
         , summary := p.summary.getD b.summary }

/-- PATCH /time-blocks/:id: 400 when no fields, 404 when no row has
this id and owner, otherwise UPDATE.  The route itself performs no
overlap check; the only database-side guard is the table constraint
`chk_time_block_end_after_start` (`end_at > start_at`), modelled as
`checkViolation` (the statement fails and nothing is written). -/
def updateInterval (bs : List Block) (uid id0 : Nat) (p : UpdatePatch) :
    UpdateResult × List Block :=
  if p.startAt.isNone && p.endAt.isNone && p.summary.isNone then (.noFields, bs)
  else
    match bs.find? (fun b => decide (b.id = id0 ∧ b.userId = uid)) with
    | none => (.notFound, bs)
    | some b =>
      if (applyPatch b p).endAt ≤ (applyPatch b p).startAt then (.checkViolation, bs)
      else (.updated (applyPatch b p),
        bs.map fun x => if x.id = id0 ∧ x.userId = uid then applyPatch b p else x)

inductive DeleteResult where
  | deleted
  | notFound
deriving DecidableEq

/-- DELETE /time-blocks/:id: delete the row owned by the caller, 404
when absent. -/
def deleteInterval (bs : List Block) (uid id0 : Nat) :
    DeleteResult × List Block :=
  if bs.any fun b => decide (b.id = id0 ∧ b.userId = uid) then
    (.deleted, bs.filter fun b => !(decide (b.id = id0 ∧ b.userId = uid)))
  else (.notFound, bs)

/-- States reachable by any sequence of create / update / delete
requests (rejected requests leave the store unchanged, so including
every request's post-state covers exactly the claim's reachable
states). -/
inductive Reachable : List Block → Prop
  | empty : Reachable []
  | create (bs : List Block) (uid : Nat) (s e : Int) (sm : Option (List Char)) :
      Reachable bs → Reachable (createInterval bs uid s e sm).2
  | update (bs : List Block) (uid id0 : Nat) (p : UpdatePatch) :
      Reachable bs → Reachable (updateInterval bs uid id0 p).2
  | delete (bs : List Block) (uid id0 : Nat) :
      Reachable bs → Reachable (deleteInterval bs uid id0).2

/-- No two distinct rows of the same user have intersecting half-open
intervals. -/
def noUserOverlap (bs : List Block) : Prop :=
  ∀ b1 ∈ bs, ∀ b2 ∈ bs, b1.id ≠ b2.id → b1.userId = b2.userId →
    ¬ (b1.startAt < b2.endAt ∧ b2.startAt < b1.endAt)

instance (bs : List Block) : Decidable (noUserOverlap bs) :=
  inferInstanceAs (Decidable (∀ b1 ∈ bs, ∀ b2 ∈ bs,
    b1.id ≠ b2.id → b1.userId = b2.userId →
      ¬ (b1.startAt < b2.endAt ∧ b2.startAt < b1.endAt)))

/-- C1 (code bug).  The no-overlap invariant is not preserved by the
implemented operations: PATCH /time-blocks/:id performs no overlap
check, so after create [0h,10h), create [20h,30h), and a PATCH moving
the second block to [5h,15h), the store is reachable, the PATCH
reported success, and the user owns two intersecting blocks. -/
theorem reachable_store_violates_no_overlap :
    (updateInterval
        (createInterval (createInterval [] 1 0 36000000 none).2
          1 72000000 108000000 none).2
        1 2 ⟨some 18000000, some 54000000, none⟩).1
      = .updated ⟨2, 1, 18000000, 54000000, none⟩
    ∧ Reachable (updateInterval
        (createInterval (createInterval [] 1 0 36000000 none).2
          1 72000000 108000000 none).2
        1 2 ⟨some 18000000, some 54000000, none⟩).2
    ∧ ¬ noUserOverlap (updateInterval
        (createInterval (createInterval [] 1 0 36000000 none).2
          1 72000000 108000000 none).2
        1 2 ⟨some 18000000, some 54000000, none⟩).2 := by
  refine ⟨by decide, ?_, by decide⟩
  exact Reachable.update _ _ _ _
    (Reachable.create _ _ _ _ _ (Reachable.create _ _ _ _ _ Reachable.empty))

/-- C3.  For a valid request (`end > start`), POST /time-blocks fails
with ConflictError iff some existing block of the same user satisfies
`existing.start < end ∧ existing.end > start`, and on conflict the
store is unchanged. -/
theorem createInterval_conflict_iff (bs : List Block) (uid : Nat) (s e : Int)
    (sm : Option (List Char)) (h : s < e) :
    ((createInterval bs uid s e sm).1 = .conflict
      ↔ ∃ b ∈ bs, b.userId = uid ∧ b.startAt < e ∧ s < b.endAt)
    ∧ ((createInterval bs uid s e sm).1 = .conflict
      → (createInterval bs uid s e sm).2 = bs) := by
  unfold createInterval
  rw [if_neg (by omega)]
  by_cases hc : overlapExists bs uid s e
  · rw [if_pos hc]
    refine ⟨⟨fun _ => ?_, fun _ => rfl⟩, fun _ => rfl⟩
    unfold overlapExists at hc
    rw [List.any_eq_true] at hc
    obtain ⟨b, hb, hdec⟩ := hc
    rw [decide_eq_true_eq] at hdec
    exact ⟨b, hb, hdec.1, hdec.2.2, hdec.2.1⟩
  · rw [if_neg hc]
    refine ⟨⟨fun hcon => absurd hcon (by simp), fun hex => absurd ?_ hc⟩,
      fun hcon => absurd hcon (by simp)⟩
    obtain ⟨b, hb, h1, h2, h3⟩ := hex
    unfold overlapExists
    rw [List.any_eq_true]
    exact ⟨b, hb, by rw [decide_eq_true_eq]; exact ⟨h1, h3, h2⟩⟩

theorem createInterval_conflict_iff_witness :
    (0 : Int) < 36000000
    ∧ ((((createInterval [⟨1, 1, 0, 36000000, none⟩] 1 18000000 54000000 none).1
          = .conflict)
        ↔ ∃ b ∈ [(⟨1, 1, 0, 36000000, none⟩ : Block)],
            b.userId = 1 ∧ b.startAt < 54000000 ∧ (18000000 : Int) < b.endAt)
      ∧ ((createInterval [⟨1, 1, 0, 36000000, none⟩] 1 18000000 54000000 none).1
          = .conflict
        → (createInterval [⟨1, 1, 0, 36000000, none⟩] 1 18000000 54000000 none).2
          = [⟨1, 1, 0, 36000000, none⟩])) :=
  ⟨by decide, createInterval_conflict_iff [⟨1, 1, 0, 36000000, none⟩]
    1 18000000 54000000 none (by decide)⟩

/-!
## GET /time-blocks: target user resolution (role gate)
-/

inductive Role where
  | member
  | admin
deriving DecidableEq

/-- A `users` row (the fields the target resolution reads). -/
structure User where
  id : Nat
  role : Role
deriving DecidableEq

/-- Target user of GET /time-blocks: the caller, unless a `userId`
query parameter is present and either the caller is an admin, or the
requested user exists with role `member` (`timeBlocks.ts` lines
46-56). -/
def resolveTargetUser (users : List User) (callerId : Nat) (callerRole : Role)
    (requested : Option Nat) : Nat :=
  match requested with
  | none => callerId
  | some ru =>
    if callerRole = .admin then ru
    else
      match users.find? (fun u => decide (u.id = ru)) with
      | some u => if u.role = .member then ru else callerId
      | none => callerId

theorem resolveTargetUser_some (users : List User) (callerId : Nat)
    (r : Role) (ru : Nat) :
    resolveTargetUser users callerId r (some ru)
      = if r = .admin then ru
        else
          match users.find? (fun u => decide (u.id = ru)) with
          | some u => if u.role = .member then ru else callerId
          | none => callerId :=
  rfl

/-- GET /time-blocks: rows of the target user intersecting
`[from, to)`, ordered by `start_at`. -/
def listIntervals (bs : List Block) (users : List User) (callerId : Nat)
    (callerRole : Role) (requested : Option Nat) (frm toTs : Int) : List Block :=
  sortBy (fun a b => decide (a.startAt ≤ b.startAt))
    (bs.filter fun b =>
      decide (b.userId = resolveTargetUser users callerId callerRole requested
        ∧ frm < b.endAt ∧ b.startAt < toTs))

/-- C9 counterexample.  A caller with role `member` (id 1) requesting
`userId = 2` receives user 2's blocks, not their own: the member role
does not prevent cross-user reads of other members' data. -/
theorem member_reads_other_members_blocks :
    listIntervals [⟨1, 2, 0, 10, none⟩] [⟨1, .member⟩, ⟨2, .member⟩]
      1 .member (some 2) (-100) 100 = [⟨1, 2, 0, 10, none⟩] := by
  decide

/-- C9 (amended).  GET /time-blocks resolves the target user as
follows: an admin caller reads the requested user; a member caller
requesting `ru` reads `ru`'s blocks iff some roster user has id `ru`
and role `member`, and otherwise falls back to their own blocks; every
returned block belongs to the resolved target and intersects the
requested range. -/
theorem listIntervals_target_rules (users : List User) (bs : List Block)
    (callerId ru : Nat) (frm toTs : Int)
    (hnd : (users.map User.id).Nodup) :
    resolveTargetUser users callerId .admin (some ru) = ru
    ∧ ((∃ u ∈ users, u.id = ru ∧ u.role = .member) →
        resolveTargetUser users callerId .member (some ru) = ru)
    ∧ ((∀ u ∈ users, u.id = ru → u.role ≠ .member) →
        resolveTargetUser users callerId .member (some ru) = callerId)
    ∧ (∀ r : Role, ∀ req : Option Nat,
        ∀ b ∈ listIntervals bs users callerId r req frm toTs,
          b.userId = resolveTargetUser users callerId r req
            ∧ frm < b.endAt ∧ b.startAt < toTs) := by
  refine ⟨?_, ?_, ?_, ?_⟩
  · rw [resolveTargetUser_some, if_pos rfl]
  · rintro ⟨u, hu, hid, hrole⟩
    rw [resolveTargetUser_some, if_neg (by decide)]
    cases hfind : users.find? (fun u => decide (u.id = ru)) with
    | none =>
      exact absurd (by rw [decide_eq_true_eq]; exact hid)
        (List.find?_eq_none.mp hfind u hu)
    | some v =>
      have hvid : v.id = ru := by
        have := List.find?_some hfind
        rwa [decide_eq_true_eq] at this
      have hvmem := List.mem_of_find?_eq_some hfind
      have hveq : v = u :=
        List.inj_on_of_nodup_map hnd hvmem hu (by rw [hvid, hid])
      rw [hveq]
      show (if u.role = Role.member then ru else callerId) = ru
      rw [if_pos hrole]
  · intro hall
    rw [resolveTargetUser_some, if_neg (by decide)]
    cases hfind : users.find? (fun u => decide (u.id = ru)) with
    | none => rfl
    | some v =>
      have hvid : v.id = ru := by
        have := List.find?_some hfind
        rwa [decide_eq_true_eq] at this
      have hvmem := List.mem_of_find?_eq_some hfind
      show (if v.role = Role.member then ru else callerId) = callerId
      rw [if_neg (hall v hvmem hvid)]
  · intro r req b hb
    unfold listIntervals at hb
    rw [mem_sortBy] at hb
    have := List.of_mem_filter hb
    rwa [decide_eq_true_eq] at this

theorem listIntervals_target_rules_witness :
    (([(⟨1, .member⟩ : User), ⟨2, .member⟩]).map User.id).Nodup
    ∧ (resolveTargetUser [⟨1, .member⟩, ⟨2, .member⟩] 1 .admin (some 2) = 2
      ∧ ((∃ u ∈ [(⟨1, .member⟩ : User), ⟨2, .member⟩], u.id = 2 ∧ u.role = .member) →
          resolveTargetUser [⟨1, .member⟩, ⟨2, .member⟩] 1 .member (some 2) = 2)
      ∧ ((∀ u ∈ [(⟨1, .member⟩ : User), ⟨2, .member⟩], u.id = 2 → u.role ≠ .member) →
          resolveTargetUser [⟨1, .member⟩, ⟨2, .member⟩] 1 .member (some 2) = 1)
      ∧ (∀ r : Role, ∀ req : Option Nat,
          ∀ b ∈ listIntervals [] [⟨1, .member⟩, ⟨2, .member⟩] 1 r req 0 1,
            b.userId = resolveTargetUser [⟨1, .member⟩, ⟨2, .member⟩] 1 r req
              ∧ (0 : Int) < b.endAt ∧ b.startAt < 1)) :=
  ⟨by decide,
    listIntervals_target_rules [⟨1, .member⟩, ⟨2, .member⟩] [] 1 2 0 1 (by decide)⟩

/-!
## Concurrency: two simultaneous POST /time-blocks requests

Each request is the SELECT-then-INSERT sequence of the create route;
the database executes each statement atomically but nothing links the
two statements of one request (`time_blocks` has no exclusion
constraint and the route opens no transaction), so the statements of
two concurrent requests may interleave freely.
-/

inductive Phase where
  | pending
  | checked (ok : Bool)
  | responded (success : Bool)
deriving DecidableEq

/-- Shared store plus the progress of two in-flight create requests. -/
structure ConcState where
  store : List Block
  p1 : Phase
  p2 : Phase
deriving DecidableEq

/-- One atomic database statement of either request: its validation +
overlap SELECT, its INSERT (only after a passed check), or its 409
response (after a failed check). -/
inductive CStep (u1 : Nat) (s1 e1 : Int) (u2 : Nat) (s2 e2 : Int) :
    ConcState → ConcState → Prop
  | check1 (store : List Block) (q : Phase) :
      CStep u1 s1 e1 u2 s2 e2 ⟨store, .pending, q⟩
        ⟨store, .checked (decide (s1 < e1) && !(overlapExists store u1 s1 e1)), q⟩
  | insert1 (store : List Block) (q : Phase) :
      CStep u1 s1 e1 u2 s2 e2 ⟨store, .checked true, q⟩
        ⟨store ++ [⟨nextId store, u1, s1, e1, none⟩], .responded true, q⟩
  | reject1 (store : List Block) (q : Phase) :
      CStep u1 s1 e1 u2 s2 e2 ⟨store, .checked false, q⟩
        ⟨store, .responded false, q⟩
  | check2 (store : List Block) (q : Phase) :
      CStep u1 s1 e1 u2 s2 e2 ⟨store, q, .pending⟩
        ⟨store, q, .checked (decide (s2 < e2) && !(overlapExists store u2 s2 e2))⟩
  | insert2 (store : List Block) (q : Phase) :
      CStep u1 s1 e1 u2 s2 e2 ⟨store, q, .checked true⟩
        ⟨store ++ [⟨nextId store, u2, s2, e2, none⟩], q, .responded true⟩
  | reject2 (store : List Block) (q : Phase) :
      CStep u1 s1 e1 u2 s2 e2 ⟨store, q, .checked false⟩
        ⟨store, q, .responded false⟩

/-- C10 (code bug).  Two concurrent create requests of user 7 with
overlapping ranges [0h,10h) and [5h,15h) admit an interleaving (both
SELECTs before both INSERTs) in which both requests succeed and the
store ends with two intersecting blocks — the claimed
exactly-one-success guarantee has no enforcement in the code or the
schema. -/
theorem concurrent_creates_can_both_succeed :
    ∃ final : ConcState,
      Relation.ReflTransGen (CStep 7 0 36000000 7 18000000 54000000)
        ⟨[], .pending, .pending⟩ final
      ∧ final.p1 = .responded true ∧ final.p2 = .responded true
      ∧ ¬ noUserOverlap final.store := by
  refine ⟨⟨[⟨1, 7, 0, 36000000, none⟩, ⟨2, 7, 18000000, 54000000, none⟩],
    .responded true, .responded true⟩, ?_, rfl, rfl, by decide⟩
  exact Relation.ReflTransGen.head (CStep.check1 [] .pending)
    (Relation.ReflTransGen.head (CStep.check2 [] (.checked true))
      (Relation.ReflTransGen.head (CStep.insert1 [] (.checked true))
        (Relation.ReflTransGen.head
          (CStep.insert2 [⟨1, 7, 0, 36000000, none⟩] (.responded true))
          Relation.ReflTransGen.refl)))

/-- C4 (code bug).  PATCH /time-blocks/:id applies a start/end change
with no overlap check: resizing block 2 of user 1 onto block 1's
interval succeeds (no ConflictError) and leaves the user with two
intersecting blocks. -/
theorem updateInterval_accepts_overlap :
    (updateInterval
        [⟨1, 1, 0, 36000000, none⟩, ⟨2, 1, 72000000, 108000000, none⟩]
        1 2 ⟨some 18000000, some 54000000, none⟩).1
      = .updated ⟨2, 1, 18000000, 54000000, none⟩
    ∧ (updateInterval
        [⟨1, 1, 0, 36000000, none⟩, ⟨2, 1, 72000000, 108000000, none⟩]
        1 2 ⟨some 18000000, some 54000000, none⟩).2
      = [⟨1, 1, 0, 36000000, none⟩, ⟨2, 1, 18000000, 54000000, none⟩]
    ∧ ¬ noUserOverlap
        (updateInterval
          [⟨1, 1, 0, 36000000, none⟩, ⟨2, 1, 72000000, 108000000, none⟩]
          1 2 ⟨some 18000000, some 54000000, none⟩).2 := by
  refine ⟨by decide, by decide, by decide⟩


/-!
## Interval Aggregator (clipped-duration sums)

The work-hours SQL sums, per period `[ps, pe)`,
`CASE WHEN start_at < pe AND end_at > ps
 THEN LEAST(end_at, pe) - GREATEST(start_at, ps) ELSE 0 END`;
the dashboard computes the same aggregate in milliseconds as a
filter-then-reduce.  Durations here are exact (milliseconds /
epoch-seconds); only the display layer rounds.
-/

/-- Clipped-duration sum in the SQL's CASE form. -/
def clippedSum (bs : List Block) (ps pe : Int) : Int :=
  (bs.map fun b =>
    if b.startAt < pe ∧ ps < b.endAt then min b.endAt pe - max b.startAt ps
    else 0).sum

/-- Clipped-duration sum in the form the spec prescribes (and the
dashboard implements): filter to the intervals intersecting the
period, clip each at the period's edges, sum. -/
def specClippedSum (bs : List Block) (ps pe : Int) : Int :=
  ((bs.filter fun b => decide (ps < b.endAt ∧ b.startAt < pe)).map fun b =>
    min b.endAt pe - max b.startAt ps).sum

/-- C2.  The implemented aggregate equals the specified
filter-clip-sum; a block fully inside the period contributes its full
duration, a block fully outside contributes 0, an empty selection
yields 0, and the interval [Sun 22:00, Mon 02:00) clipped to the week
[Mon 00:00, Mon+7d) contributes exactly 2 hours (7 200 000 ms). -/
theorem clipped_aggregation_correct :
    (∀ (bs : List Block) (ps pe : Int),
      clippedSum bs ps pe = specClippedSum bs ps pe)
    ∧ (∀ (b : Block) (ps pe : Int),
        ps ≤ b.startAt → b.endAt ≤ pe → b.startAt < b.endAt →
          clippedSum [b] ps pe = b.endAt - b.startAt)
    ∧ (∀ (b : Block) (ps pe : Int),
        b.endAt ≤ ps ∨ pe ≤ b.startAt → clippedSum [b] ps pe = 0)
    ∧ (∀ ps pe : Int, clippedSum [] ps pe = 0)
    ∧ clippedSum [⟨1, 1, -7200000, 7200000, none⟩] 0 604800000 = 7200000 := by
  refine ⟨?_, ?_, ?_, fun ps pe => rfl, by decide⟩
  · intro bs ps pe
    induction bs with
    | nil => rfl
    | cons b l ih =>
      unfold clippedSum specClippedSum
      unfold clippedSum specClippedSum at ih
      simp only [List.map_cons, List.sum_cons, List.filter_cons]
      by_cases h : ps < b.endAt ∧ b.startAt < pe
      · rw [if_pos ⟨h.2, h.1⟩, if_pos (by rw [decide_eq_true_eq]; exact h)]
        simp only [List.map_cons, List.sum_cons]
        rw [ih]
      · rw [if_neg (fun hc => h ⟨hc.2, hc.1⟩),
          if_neg (by rw [decide_eq_true_eq]; exact h)]
        rw [ih]
        omega
  · intro b ps pe h1 h2 hbe
    unfold clippedSum
    simp only [List.map_cons, List.map_nil, List.sum_cons, List.sum_nil]
    rw [if_pos (by omega)]
    omega
  · intro b ps pe h
    unfold clippedSum
    simp only [List.map_cons, List.map_nil, List.sum_cons, List.sum_nil]
    rw [if_neg (by omega)]
    omega

theorem clipped_aggregation_correct_witness :
    ((0 : Int) ≤ 18000000 ∧ (54000000 : Int) ≤ 86400000
      ∧ (18000000 : Int) < 54000000)
    ∧ clippedSum [(⟨1, 1, 18000000, 54000000, none⟩ : Block)] 0 86400000
      = (54000000 : Int) - 18000000 :=
  ⟨⟨by decide, by decide, by decide⟩,
    (clipped_aggregation_correct.2.1 ⟨1, 1, 18000000, 54000000, none⟩ 0 86400000
      (by decide) (by decide) (by decide))⟩

/-!
## Revenue ranking month range (`GET /rankings/revenue`)

`DATE` values are day numbers.  The route builds
`monthStartStr = "YYYY-MM-01"` textually, but
`monthEndStr = new Date(year, month, 0).toISOString().slice(0, 10)`:
a *local*-midnight instant formatted as its *UTC* calendar date.
-/

/-- A `revenue_entries` row. -/
structure RevenueEntry where
  userId : Nat
  date : Int
  amount : ℚ
deriving DecidableEq

/-- The `[monthStartStr, monthEndStr]` day-number range of the revenue
query, under a runtime local timezone of fixed offset `offMs`. -/
def revenueMonthRange (year month offMs : Int) : Int × Int :=
  (daysFromCivil year month 1, (jsUTCms year month 0 - offMs) / 86400000)

/-- `SUM(CASE WHEN date >= $1 AND date <= $2 THEN amount ELSE 0 END)`
for one user. -/
def monthlyRevenue (entries : List RevenueEntry) (uid : Nat)
    (year month offMs : Int) : ℚ :=
  ((entries.filter fun e => decide (e.userId = uid
      ∧ (revenueMonthRange year month offMs).1 ≤ e.date
      ∧ e.date ≤ (revenueMonthRange year month offMs).2)).map
    RevenueEntry.amount).sum

/-- C6 (code bug).  Under the documented deployment timezone UTC+9
(`TZ=Asia/Yakutsk`), `toISOString` shifts the local last-of-month
midnight back into the previous UTC day, so the computed month range
for 2024-01 is [2024-01-01, 2024-01-30] (day numbers 19723..19752) and
an entry dated 2024-01-31 (day 19753) is excluded from the monthly
sum; with a UTC runtime (offset 0) the range would reach 19753 as the
claim requires. -/
theorem revenue_monthly_excludes_last_day :
    revenueMonthRange 2024 1 32400000 = (19723, 19752)
    ∧ daysFromCivil 2024 1 31 = 19753
    ∧ monthlyRevenue [⟨1, 19753, 100⟩] 1 2024 1 32400000 = 0
    ∧ revenueMonthRange 2024 1 0 = (19723, 19753)
    ∧ monthlyRevenue [⟨1, 19753, 100⟩] 1 2024 1 0 = 100 := by
  refine ⟨by decide, by decide, ?_, by decide, ?_⟩
  · unfold monthlyRevenue
    rw [show ([(⟨1, 19753, 100⟩ : RevenueEntry)].filter fun e =>
        decide (e.userId = 1 ∧ (revenueMonthRange 2024 1 32400000).1 ≤ e.date
          ∧ e.date ≤ (revenueMonthRange 2024 1 32400000).2)) = [] from by decide]
    rfl
  · unfold monthlyRevenue
    rw [show ([(⟨1, 19753, 100⟩ : RevenueEntry)].filter fun e =>
        decide (e.userId = 1 ∧ (revenueMonthRange 2024 1 0).1 ≤ e.date
          ∧ e.date ≤ (revenueMonthRange 2024 1 0).2))
      = [(⟨1, 19753, 100⟩ : RevenueEntry)] from by decide]
    simp

/-!
## Summary label encoding (`parseSummary` / work-hours summary filter)

JS strings are `List Char`.  `parseSummary` splits
`"Title\n\nContent"` at the first `"\n\n"`, trimming both parts;
a null or empty summary (JS falsy) and an empty trimmed title default
to `"Work"`.  The work-hours SQL counts a block iff
`summary IS NOT NULL AND (summary = 'Work' OR summary LIKE
'Work' || E'\n\n' || '%')`.
-/

/-- The label `"Work"`. -/
def workLabel : List Char := ['W', 'o', 'r', 'k']

/-- Whitespace removed by JS `trim` (the ASCII part). -/
def isJsSpace (c : Char) : Bool :=
  c == ' ' || c == '\n' || c == '\t' || c == '\r'

/-- JS `String.prototype.trim`. -/
def trimChars (s : List Char) : List Char :=
  ((s.dropWhile isJsSpace).reverse.dropWhile isJsSpace).reverse

/-- `summary.indexOf('\n\n')` (as `Option`; the source tests `i < 0`). -/
def findDelim : List Char → Option Nat
  | '\n' :: '\n' :: _ => some 0
  | _ :: rest => (findDelim rest).map (· + 1)
  | [] => none

/-- `parseSummary` of `client.ts`: `(title, content)`. -/
def parseSummary (s : Option (List Char)) : List Char × List Char :=
  match s with
  | none => (workLabel, [])
  | some s =>
    if s = [] then (workLabel, [])
    else
      match findDelim s with
      | none => (if trimChars s = [] then workLabel else trimChars s, [])
      | some i =>
        (if trimChars (s.take i) = [] then workLabel else trimChars (s.take i),
          trimChars (s.drop (i + 2)))

/-- Boolean string-prefix test. -/
def listStartsWith : List Char → List Char → Bool
  | [], _ => true
  | _ :: _, [] => false
  | p :: ps, c :: cs => p == c && listStartsWith ps cs

/-- The `blocks` CTE filter of the work-hours SQL. -/
def isWorkSummary : Option (List Char) → Bool
  | none => false
  | some s => s == workLabel || listStartsWith (workLabel ++ ['\n', '\n']) s

/-- The rows that enter the work-hours aggregation. -/
def workBlocks (bs : List Block) : List Block :=
  bs.filter fun b => isWorkSummary b.summary

theorem listStartsWith_iff (p s : List Char) :
    listStartsWith p s = true ↔ ∃ t, s = p ++ t := by
  induction p generalizing s with
  | nil => simp [listStartsWith]
  | cons a p ih =>
    cases s with
    | nil =>
      simp only [listStartsWith, List.cons_append]
      constructor
      · intro h
        exact absurd h (by simp)
      · rintro ⟨t, ht⟩
        exact absurd ht (by simp)
    | cons c cs =>
      simp only [listStartsWith, Bool.and_eq_true, beq_iff_eq, List.cons_append,
        List.cons.injEq, ih]
      constructor
      · rintro ⟨rfl, t, rfl⟩
        exact ⟨t, rfl, rfl⟩
      · rintro ⟨t, rfl, rfl⟩
        exact ⟨rfl, t, rfl⟩

theorem parseSummary_some (s : List Char) :
    parseSummary (some s)
      = if s = [] then (workLabel, [])
        else
          match findDelim s with
          | none => (if trimChars s = [] then workLabel else trimChars s, [])
          | some i =>
            (if trimChars (s.take i) = [] then workLabel else trimChars (s.take i),
              trimChars (s.drop (i + 2))) :=
  rfl

theorem findDelim_work_prefix (t : List Char) :
    findDelim ('W' :: 'o' :: 'r' :: 'k' :: '\n' :: '\n' :: t) = some 4 :=
  rfl

/-- C7 counterexample.  A block whose summary's first line is the
unrecognised label `"Banana"` parses to title `"Banana"`, not
`"Work"`; and a block with a null summary — whose parsed title *is*
`"Work"` — is excluded by the ranking's summary filter, so its 10-hour
duration contributes 0 to the Work aggregate over a period that fully
contains it. -/
theorem default_work_label_not_counted :
    (parseSummary (some ['B', 'a', 'n', 'a', 'n', 'a'])).1 ≠ workLabel
    ∧ isWorkSummary none = false
    ∧ (parseSummary none).1 = workLabel
    ∧ clippedSum (workBlocks [⟨1, 1, 0, 36000000, none⟩]) 0 86400000 = 0 := by
  refine ⟨by decide, rfl, rfl, by decide⟩

/-- C7 (amended).  `parseSummary` yields title `"Work"` for a null
summary, but returns an unrecognised non-empty first line verbatim
(the calendar view, not `parseSummary`, coerces unrecognised titles to
`"Work"` for display); the work-hours ranking counts exactly the
blocks whose summary is `'Work'` or starts with `'Work\n\n'` — all of
which parse to title `"Work"` — while null-summary and
unrecognised-label blocks are not counted in its aggregates. -/
theorem work_summary_filter_characterisation :
    (parseSummary none).1 = workLabel
    ∧ (∀ s : List Char, isWorkSummary (some s) = true
        → (parseSummary (some s)).1 = workLabel)
    ∧ isWorkSummary none = false
    ∧ (parseSummary (some ['B', 'a', 'n', 'a', 'n', 'a'])).1
        = ['B', 'a', 'n', 'a', 'n', 'a'] := by
  refine ⟨rfl, ?_, rfl, by decide⟩
  intro s h
  unfold isWorkSummary at h
  rw [Bool.or_eq_true] at h
  rcases h with h | h
  · rw [beq_iff_eq] at h
    rw [h]
    decide
  · rw [listStartsWith_iff] at h
    obtain ⟨t, rfl⟩ := h
    have he : workLabel ++ ['\n', '\n'] ++ t
        = 'W' :: 'o' :: 'r' :: 'k' :: '\n' :: '\n' :: t := rfl
    rw [he, parseSummary_some, if_neg (by simp), findDelim_work_prefix]
    rfl

theorem work_summary_filter_characterisation_witness :
    isWorkSummary (some ['W', 'o', 'r', 'k']) = true
    ∧ (parseSummary (some ['W', 'o', 'r', 'k'])).1 = workLabel :=
  ⟨by decide, work_summary_filter_characterisation.2.1 ['W', 'o', 'r', 'k'] (by decide)⟩

/-!
## Ranking Assembler

Both rankings join the per-user SQL aggregates against the full member
roster (`SELECT .. FROM users WHERE role = 'member'`), defaulting
missing aggregates to 0 (and missing expected revenue to null), then
sort descending by the total with `Array.prototype.sort`.
-/

/-- A roster row (`users` with role member, in roster order). -/
structure Member where
  id : Nat
  displayName : Option (List Char)
  email : List Char
deriving DecidableEq

/-- A per-user row of the work-hours aggregation query. -/
structure WorkRow where
  userId : Nat
  daily : ℚ
  weekly : ℚ
  monthly : ℚ
  total : ℚ
deriving DecidableEq

/-- An output entry of GET /rankings/work-hours. -/
structure WorkRankEntry where
  userId : Nat
  displayName : List Char
  email : List Char
  dailyHours : ℚ
  weeklyHours : ℚ
  monthlyHours : ℚ
  totalHours : ℚ
deriving DecidableEq

/-- A per-user row of the revenue SUM query. -/
structure RevenueRow where
  userId : Nat
  monthly : ℚ
  total : ℚ
deriving DecidableEq

/-- An `expected_revenue` row for the target month. -/
structure ExpectedRow where
  userId : Nat
  amount : ℚ
deriving DecidableEq

/-- An output entry of GET /rankings/revenue. -/
structure RevenueRankEntry where
  userId : Nat
  displayName : List Char
  email : List Char
  monthlyRevenue : ℚ
  totalRevenue : ℚ
  expectedRevenue : Option ℚ
deriving DecidableEq

/-- `Number(Number(x).toFixed(2))`: rounding to 2 decimals at the
output boundary. -/
def round2 (q : ℚ) : ℚ := (round (q * 100) : ℤ) / 100

/-- The output entry built for one roster member from the aggregate
lookup map (zeroes when the member has no aggregate row). -/
def workEntryFor (rows : List WorkRow) (u : Member) : WorkRankEntry :=
  match rows.find? (fun r => decide (r.userId = u.id)) with
  | some w => ⟨u.id, u.displayName.getD u.email, u.email,
      round2 w.daily, round2 w.weekly, round2 w.monthly, round2 w.total⟩
  | none => ⟨u.id, u.displayName.getD u.email, u.email, 0, 0, 0, 0⟩

/-- GET /rankings/work-hours: one entry per roster member, sorted by
`(a, b) => b.totalHours - a.totalHours`. -/
def assembleWorkRanking (members : List Member) (rows : List WorkRow) :
    List WorkRankEntry :=
  sortBy (fun a b => decide (b.totalHours ≤ a.totalHours))
    (members.map (workEntryFor rows))

/-- The revenue output entry for one roster member (expected revenue
is looked up independently of the aggregate row; null when unset). -/
def revenueEntryFor (rows : List RevenueRow) (exps : List ExpectedRow)
    (u : Member) : RevenueRankEntry :=
  match rows.find? (fun r => decide (r.userId = u.id)) with
  | some r => ⟨u.id, u.displayName.getD u.email, u.email,
      round2 r.monthly, round2 r.total,
      (exps.find? (fun x => decide (x.userId = u.id))).map (fun x => round2 x.amount)⟩
  | none => ⟨u.id, u.displayName.getD u.email, u.email, 0, 0,
      (exps.find? (fun x => decide (x.userId = u.id))).map (fun x => round2 x.amount)⟩

/-- GET /rankings/revenue: one entry per roster member, sorted by
`(a, b) => b.totalRevenue - a.totalRevenue`. -/
def assembleRevenueRanking (members : List Member) (rows : List RevenueRow)
    (exps : List ExpectedRow) : List RevenueRankEntry :=
  sortBy (fun a b => decide (b.totalRevenue ≤ a.totalRevenue))
    (members.map (revenueEntryFor rows exps))

theorem workEntryFor_userId (rows : List WorkRow) (u : Member) :
    (workEntryFor rows u).userId = u.id := by
  unfold workEntryFor
  cases rows.find? (fun r => decide (r.userId = u.id)) with
  | none => rfl
  | some w => rfl

theorem revenueEntryFor_userId (rows : List RevenueRow) (exps : List ExpectedRow)
    (u : Member) :
    (revenueEntryFor rows exps u).userId = u.id := by
  unfold revenueEntryFor
  cases rows.find? (fun r => decide (r.userId = u.id)) with
  | none => rfl
  | some w => rfl

/-- C8.  With a duplicate-free roster, every member appears exactly
once in each ranking; a member with no aggregate row appears with all
aggregates 0 (and null expected revenue); both rankings are sorted
descending by total; and in the concrete 3-member roster where only
member 2 logged 8 work hours, the output has exactly 3 entries with
member 2 first and the two inactive members at 0 below. -/
theorem ranking_includes_every_member (members : List Member)
    (rows : List WorkRow) (revRows : List RevenueRow) (exps : List ExpectedRow)
    (hnd : (members.map Member.id).Nodup) :
    (∀ u ∈ members,
      ((assembleWorkRanking members rows).map
        (fun e => e.userId)).count u.id = 1)
    ∧ (∀ u ∈ members, (∀ w ∈ rows, w.userId ≠ u.id) →
        ∃ ent ∈ assembleWorkRanking members rows, ent.userId = u.id
          ∧ ent.dailyHours = 0 ∧ ent.weeklyHours = 0 ∧ ent.monthlyHours = 0
          ∧ ent.totalHours = 0)
    ∧ (assembleWorkRanking members rows).Pairwise
        (fun a b => b.totalHours ≤ a.totalHours)
    ∧ (∀ u ∈ members,
        ((assembleRevenueRanking members revRows exps).map
          (fun e => e.userId)).count u.id = 1)
    ∧ (∀ u ∈ members, (∀ r ∈ revRows, r.userId ≠ u.id) →
        (∀ x ∈ exps, x.userId ≠ u.id) →
        ∃ ent ∈ assembleRevenueRanking members revRows exps, ent.userId = u.id
          ∧ ent.monthlyRevenue = 0 ∧ ent.totalRevenue = 0
          ∧ ent.expectedRevenue = none)
    ∧ (assembleRevenueRanking members revRows exps).Pairwise
        (fun a b => b.totalRevenue ≤ a.totalRevenue)
    ∧ assembleWorkRanking
        [⟨1, none, ['a']⟩, ⟨2, none, ['b']⟩, ⟨3, none, ['c']⟩] [⟨2, 8, 8, 8, 8⟩]
      = [⟨2, ['b'], ['b'], 8, 8, 8, 8⟩, ⟨1, ['a'], ['a'], 0, 0, 0, 0⟩,
         ⟨3, ['c'], ['c'], 0, 0, 0, 0⟩] := by
  refine ⟨?_, ?_, ?_, ?_, ?_, ?_, ?_⟩
  · intro u hu
    rw [assembleWorkRanking]
    have hperm := (perm_sortBy (fun a b => decide (b.totalHours ≤ a.totalHours))
      (members.map (workEntryFor rows))).map (fun e => e.userId)
    rw [hperm.count_eq u.id]
    rw [List.map_map]
    have hmc : List.map ((fun e => e.userId) ∘ workEntryFor rows) members
        = List.map Member.id members :=
      List.map_congr_left (fun v _ => workEntryFor_userId rows v)
    rw [hmc]
    exact List.count_eq_one_of_mem hnd (List.mem_map_of_mem Member.id hu)
  · intro u hu hnone
    have hfind : rows.find? (fun r => decide (r.userId = u.id)) = none :=
      List.find?_eq_none.mpr (fun x hx => by
        rw [decide_eq_true_eq]
        exact hnone x hx)
    refine ⟨workEntryFor rows u, ?_, workEntryFor_userId rows u, ?_, ?_, ?_, ?_⟩
    · rw [assembleWorkRanking, mem_sortBy]
      exact List.mem_map_of_mem (workEntryFor rows) hu
    · unfold workEntryFor
      rw [hfind]
    · unfold workEntryFor
      rw [hfind]
    · unfold workEntryFor
      rw [hfind]
    · unfold workEntryFor
      rw [hfind]
  · rw [assembleWorkRanking]
    refine (pairwise_sortBy _ ?_ ?_ _).imp (fun h => by rwa [decide_eq_true_eq] at h)
    · intro a b h
      rw [decide_eq_false_iff_not] at h
      rw [decide_eq_true_eq]
      exact le_of_not_le h
    · intro a b c h1 h2
      rw [decide_eq_true_eq] at h1 h2 ⊢
      exact le_trans h2 h1
  · intro u hu
    rw [assembleRevenueRanking]
    have hperm := (perm_sortBy (fun a b => decide (b.totalRevenue ≤ a.totalRevenue))
      (members.map (revenueEntryFor revRows exps))).map (fun e => e.userId)
    rw [hperm.count_eq u.id]
    rw [List.map_map]
    have hmc : List.map ((fun e => e.userId) ∘ revenueEntryFor revRows exps) members
        = List.map Member.id members :=
      List.map_congr_left (fun v _ => revenueEntryFor_userId revRows exps v)
    rw [hmc]
    exact List.count_eq_one_of_mem hnd (List.mem_map_of_mem Member.id hu)
  · intro u hu hnone hnoexp
    have hfind : revRows.find? (fun r => decide (r.userId = u.id)) = none :=
      List.find?_eq_none.mpr (fun x hx => by
        rw [decide_eq_true_eq]
        exact hnone x hx)
    have hfexp : exps.find? (fun x => decide (x.userId = u.id)) = none :=
      List.find?_eq_none.mpr (fun x hx => by
        rw [decide_eq_true_eq]
        exact hnoexp x hx)
    refine ⟨revenueEntryFor revRows exps u, ?_,
      revenueEntryFor_userId revRows exps u, ?_, ?_, ?_⟩
    · rw [assembleRevenueRanking, mem_sortBy]
      exact List.mem_map_of_mem (revenueEntryFor revRows exps) hu
    · unfold revenueEntryFor
      rw [hfind]
    · unfold revenueEntryFor
      rw [hfind]
    · unfold revenueEntryFor
      rw [hfind, hfexp]
      rfl
  · rw [assembleRevenueRanking]
    refine (pairwise_sortBy _ ?_ ?_ _).imp (fun h => by rwa [decide_eq_true_eq] at h)
    · intro a b h
      rw [decide_eq_false_iff_not] at h
      rw [decide_eq_true_eq]
      exact le_of_not_le h
    · intro a b c h1 h2
      rw [decide_eq_true_eq] at h1 h2 ⊢
      exact le_trans h2 h1
  · have hr : round2 8 = 8 := by norm_num [round2]
    have h2 : workEntryFor [⟨2, 8, 8, 8, 8⟩] ⟨2, none, ['b']⟩
        = ⟨2, ['b'], ['b'], 8, 8, 8, 8⟩ := by
      unfold workEntryFor
      rw [show ([(⟨2, 8, 8, 8, 8⟩ : WorkRow)].find?
          (fun r => decide (r.userId = (⟨2, none, ['b']⟩ : Member).id)))
        = some ⟨2, 8, 8, 8, 8⟩ from by decide]
      show (⟨2, ['b'], ['b'], round2 8, round2 8, round2 8, round2 8⟩
        : WorkRankEntry) = _
      rw [hr]
    have h1 : workEntryFor [⟨2, 8, 8, 8, 8⟩] ⟨1, none, ['a']⟩
        = ⟨1, ['a'], ['a'], 0, 0, 0, 0⟩ := by decide
    have h3 : workEntryFor [⟨2, 8, 8, 8, 8⟩] ⟨3, none, ['c']⟩
        = ⟨3, ['c'], ['c'], 0, 0, 0, 0⟩ := by decide
    unfold assembleWorkRanking
    simp only [List.map_cons, List.map_nil, h1, h2, h3]
    decide

theorem ranking_includes_every_member_witness :
    (([(⟨1, none, ['a']⟩ : Member)].map Member.id).Nodup)
    ∧ (∀ u ∈ [(⟨1, none, ['a']⟩ : Member)],
        ((assembleWorkRanking [⟨1, none, ['a']⟩] []).map
          (fun e => e.userId)).count u.id = 1) :=
  ⟨by decide,
    (ranking_includes_every_member [⟨1, none, ['a']⟩] [] [] [] (by decide)).1⟩

end Portal
